import Mathlib

/-!
# Verification of GIMLI plane geometry and extrusion mesh generators

Shallow embedding of `src/plane.h` and `src/meshgenerators.h` of the
gimli repository.  Real-number geometry (class `Plane`) is embedded over
`ℝ`; mesh extrusion (`createMesh2D`, `createMesh3D`,
`addTriangleBoundary`) is embedded over `ℚ` with explicitly indexed
node/cell/boundary lists.

The repository ships only the two header files; the method bodies in
`plane.cpp` and `meshgenerators.cpp` are not part of the sources.  Inline
members of `plane.h` (`distance`, `x0`, `d`, `norm`, `valid`,
`operator==`) are translated from the source; all other behaviour is
modelled from the specification, as marked in each doc comment.
-/

namespace GIMLI

/-- The shared geometric tolerance.  Modelled from the spec: the constant
`TOLERANCE` lives in `gimli.h`, which is not among the sources; the spec
says it is "a fixed small epsilon suitable for double-precision geometry,
defined once, reused everywhere". -/
noncomputable def TOLERANCE : ℝ := 1e-12

/-- A 3D vector with real components, embedding the external collaborator
`RVector3` (`pos.h`, not among the sources, interface per spec §6). -/
structure RVector3 where
  x : ℝ
  y : ℝ
  z : ℝ

namespace RVector3

/-- Componentwise subtraction of 3D vectors. -/
noncomputable def sub (a b : RVector3) : RVector3 := ⟨a.x - b.x, a.y - b.y, a.z - b.z⟩

/-- Componentwise addition of 3D vectors. -/
noncomputable def add (a b : RVector3) : RVector3 := ⟨a.x + b.x, a.y + b.y, a.z + b.z⟩

/-- Componentwise negation. -/
noncomputable def neg (a : RVector3) : RVector3 := ⟨-a.x, -a.y, -a.z⟩

/-- Scalar multiple `s * v`. -/
noncomputable def smul (s : ℝ) (a : RVector3) : RVector3 := ⟨s * a.x, s * a.y, s * a.z⟩

/-- Dot product. -/
noncomputable def dot (a b : RVector3) : ℝ := a.x * b.x + a.y * b.y + a.z * b.z

/-- Cross product. -/
noncomputable def cross (a b : RVector3) : RVector3 :=
  ⟨a.y * b.z - a.z * b.y, a.z * b.x - a.x * b.z, a.x * b.y - a.y * b.x⟩

/-- Euclidean length (`RVector3::abs` in gimli). -/
noncomputable def length (a : RVector3) : ℝ := Real.sqrt (a.dot a)

theorem dot_self_nonneg (a : RVector3) : 0 ≤ a.dot a := by
  have hx := mul_self_nonneg a.x
  have hy := mul_self_nonneg a.y
  have hz := mul_self_nonneg a.z
  simp only [dot]
  linarith

theorem length_nonneg (a : RVector3) : 0 ≤ a.length := Real.sqrt_nonneg _

theorem length_sq (a : RVector3) : a.length ^ 2 = a.dot a := by
  simp only [length]
  exact Real.sq_sqrt (dot_self_nonneg a)

theorem length_pos_of_dot_pos {a : RVector3} (h : 0 < a.dot a) : 0 < a.length :=
  Real.sqrt_pos.mpr h

theorem dot_pos_of_length_pos {a : RVector3} (h : 0 < a.length) : 0 < a.dot a := by
  by_contra hc
  push_neg at hc
  have : a.dot a = 0 := le_antisymm hc (dot_self_nonneg a)
  simp [length, this] at h

theorem length_smul (s : ℝ) (a : RVector3) : (smul s a).length = |s| * a.length := by
  simp only [length, smul, dot]
  have h : s * a.x * (s * a.x) + s * a.y * (s * a.y) + s * a.z * (s * a.z)
      = s ^ 2 * (a.x * a.x + a.y * a.y + a.z * a.z) := by ring
  rw [h, Real.sqrt_mul (sq_nonneg s), Real.sqrt_sq_eq_abs]

/-- The cross product is orthogonal to its first argument. -/
theorem dot_cross_left (a b : RVector3) : a.dot (cross a b) = 0 := by
  simp only [dot, cross]; ring

/-- The cross product is orthogonal to its second argument. -/
theorem dot_cross_right (a b : RVector3) : b.dot (cross a b) = 0 := by
  simp only [dot, cross]; ring

/-- Lagrange identity for the cross product length. -/
theorem cross_dot_self (a b : RVector3) :
    (cross a b).dot (cross a b) = a.dot a * (b.dot b) - a.dot b * (a.dot b) := by
  simp only [dot, cross]; ring

end RVector3

/-- A line in 3D space, embedding the external collaborator `Line`
(`line.h`, not among the sources): a base point, a direction, and a
validity state.  Per spec §7, degeneracy is an explicit "invalid" state
on the geometric object. -/
structure Line where
  p0 : RVector3
  dir : RVector3
  valid_ : Prop

/-- The point of the line at parameter `t`: `p0 + t * dir`. -/
noncomputable def Line.at (l : Line) (t : ℝ) : RVector3 :=
  l.p0.add (RVector3.smul t l.dir)

/-- The plane class of `src/plane.h`: Hessian normal form, storing the
unit normal `norm_`, the signed distance `d_` from the origin and the
validity flag `valid_` (fields per `plane.h` lines 105-107). -/
structure Plane where
  norm_ : RVector3
  d_ : ℝ
  valid_ : Prop

namespace Plane

/-- `Plane::distance`, translated from the source (`plane.h` line 89):
`return norm_.dot( pos ) - d_;`. -/
noncomputable def distance (p : Plane) (pos : RVector3) : ℝ := p.norm_.dot pos - p.d_

/-- `Plane::d` accessor, translated from the source (`plane.h` line 92). -/
noncomputable def d (p : Plane) : ℝ := p.d_

/-- `Plane::norm` accessor, translated from the source (`plane.h` line 83). -/
def norm (p : Plane) : RVector3 := p.norm_

/-- `Plane::x0`, translated from the source (`plane.h` line 86):
`return norm_ * d_;`. -/
noncomputable def x0 (p : Plane) : RVector3 := RVector3.smul p.d_ p.norm_

/-- `Plane::valid` accessor, translated from the source (`plane.h` line 98). -/
def valid (p : Plane) : Prop := p.valid_

/-- `Plane::checkValidity`.  Modelled from the spec: the body lives in
`plane.cpp`, which is missing; the spec says it returns true iff
`||norm| - 1.0| < tol` and "does not mutate `valid` unless called
internally at construction", so it is embedded state-passing style as the
pair (result, post-state plane). -/
noncomputable def checkValidity (p : Plane) (tol : ℝ) : Prop × Plane :=
  (|p.norm_.length - 1| < tol, p)

/-- Construction from Hessian normal form (`Plane(norm, d)`).  Modelled
from the spec: the constructor body is in the missing `plane.cpp`; the
spec's invariant says the plane stores the given normal and distance and
is valid when `|norm| = 1` within tolerance (the internal
`checkValidity` call at construction). -/
noncomputable def fromNormD (n : RVector3) (dist : ℝ) : Plane :=
  ⟨n, dist, |n.length - 1| < TOLERANCE⟩

/-- Construction from three points (`Plane(p0, p1, p2)`).  Modelled from
the spec: the constructor body is in the missing `plane.cpp`; per the
spec the normal is the normalized cross product of the two spanning
directions, `d` places `p0` on the plane, and the plane "becomes invalid
if the normal cannot be normalized (e.g., three collinear points)".  In
the zero-cross case the normalization denominator is zero, leaving a
zero normal that fails the validity check. -/
noncomputable def fromPoints (p0 p1 p2 : RVector3) : Plane :=
  let c := RVector3.cross (p1.sub p0) (p2.sub p0)
  let n := RVector3.smul (1 / c.length) c
  ⟨n, n.dot p0, |n.length - 1| < TOLERANCE⟩

/-- The default constructor `Plane()`.  Modelled from the spec and the
header doc comments (`plane.h` lines 34, 97): "Construct an invalid
empty plane", "This plane is not valid if its initialized by default
constructor"; the body is in the missing `plane.cpp`. -/
def defaultPlane : Plane := ⟨⟨0, 0, 0⟩, 0, False⟩

/-- `Plane::compare`.  Modelled from the spec: the body is in the missing
`plane.cpp`; per the spec (and the header doc comment, `plane.h` lines
64-65) it is true iff both planes are valid and `|norm - p.norm| < tol`
and `|d_ - p.d| < tol`. -/
noncomputable def compare (p q : Plane) (tol : ℝ) : Prop :=
  p.valid_ ∧ q.valid_ ∧ (p.norm_.sub q.norm_).length < tol ∧ |p.d_ - q.d_| < tol

/-- `Plane::touch`.  Modelled from the spec: the body is in the missing
`plane.cpp`; per the spec (and the header doc comment, `plane.h` lines
68-69) it is true iff the plane is valid and `|distance(pos)| < tol`. -/
noncomputable def touch (p : Plane) (pos : RVector3) (tol : ℝ) : Prop :=
  p.valid_ ∧ |p.distance pos| < tol

/-- `Plane::intersect(plane, tol)`.  Modelled from the spec: the body is
in the missing `plane.cpp`.  Per the spec the result is invalid when the
cross product of the two normals has magnitude below `tol` (parallel or
coincident planes); otherwise the direction is the normalized cross
product and the base point is the solution of the 3×3 least-squares
system in the plane spanned by the two normals (the spec's "equivalently"
branch). -/
noncomputable def intersect (p q : Plane) (tol : ℝ) : Line :=
  let c := RVector3.cross p.norm_ q.norm_
  let denom := c.dot c
  let a := (p.d_ * q.norm_.dot q.norm_ - q.d_ * p.norm_.dot q.norm_) / denom
  let b := (q.d_ * p.norm_.dot p.norm_ - p.d_ * p.norm_.dot q.norm_) / denom
  { p0 := (RVector3.smul a p.norm_).add (RVector3.smul b q.norm_)
    dir := RVector3.smul (1 / c.length) c
    valid_ := p.valid_ ∧ q.valid_ ∧ tol ≤ c.length }

end Plane

/-! ## Mesh extrusion generators (`src/meshgenerators.h`)

The mesh container is an external collaborator (spec §6): nodes with a
position and an integer marker, boundary entities (edges in 2D, faces in
3D) with a marker and an ordered incident-node list, and cells with a
marker and an ordered incident-node list.  Nodes are addressed by their
index in the node list.  Coordinates are embedded as exact rationals. -/

/-- A node of a 1D source mesh: position on the line and integer marker. -/
structure Node1 where
  pos : ℚ
  marker : Int
deriving DecidableEq

/-- An edge of a 1D source mesh: its two node indices and its marker. -/
structure Edge1 where
  a : Nat
  b : Nat
  marker : Int
deriving DecidableEq

/-- A 1D source mesh: a polyline of nodes and edges (spec §4.2). -/
structure Mesh1 where
  nodes : List Node1
  edges : List Edge1
deriving DecidableEq

/-- A node of a 2D mesh: planar position and integer marker. -/
structure Node2 where
  x : ℚ
  y : ℚ
  marker : Int
deriving DecidableEq

/-- A 2D boundary entity: an edge given by two node indices and a marker. -/
structure BoundaryEdge where
  a : Nat
  b : Nat
  marker : Int
deriving DecidableEq

/-- A cell: ordered incident-node index list and marker.  The shape kind
is determined by the node count (3 = triangle, 4 = quad in 2D;
6 = triangular prism, 8 = hexahedron in 3D). -/
structure Cell where
  nodes : List Nat
  marker : Int
deriving DecidableEq

/-- A 2D mesh: nodes, boundary edges and cells. -/
structure Mesh2 where
  nodes : List Node2
  bounds : List BoundaryEdge
  cells : List Cell
deriving DecidableEq

/-- A node of a 3D mesh. -/
structure Node3 where
  x : ℚ
  y : ℚ
  z : ℚ
  marker : Int
deriving DecidableEq

/-- A 3D boundary entity: a face given by its node indices and a marker. -/
structure Face where
  nodes : List Nat
  marker : Int
deriving DecidableEq

/-- A 3D mesh: nodes, boundary faces and cells. -/
structure Mesh3 where
  nodes : List Node3
  bounds : List Face
  cells : List Cell
deriving DecidableEq

/-- Strict monotonicity check for an extrusion axis sequence.  Modelled
from the spec: "must be strictly monotonic (duplicate or out-of-order
values are a usage error)". -/
def strictlyIncreasing : List ℚ → Bool
  | [] => true
  | [_] => true
  | a :: b :: t => decide (a < b) && strictlyIncreasing (b :: t)

/-- Marker of an extruded node at level `k` of `levels` levels.  Modelled
from the spec: a nonzero source node marker is kept; unmarked nodes on the
extremal levels take `frontMarker` (first level) or `backMarker` (last
level). -/
def extrudedNodeMarker (levels : Nat) (frontMarker backMarker : Int)
    (k : Nat) (m : Int) : Int :=
  if m ≠ 0 then m
  else if k = 0 then frontMarker
  else if k = levels - 1 then backMarker
  else 0

/-- The quadrilateral cell emitted for source edge `e` between levels `k`
and `k+1`, with `nn` nodes per level: the edge's two endpoints replicated
at both levels, marker taken from the source edge.  Modelled from the
spec: "Edges with marker are extruded as cells with marker." -/
def quadAt (nn k : Nat) (e : Edge1) : Cell :=
  { nodes := [e.a + k * nn, e.b + k * nn, e.b + (k + 1) * nn, e.a + (k + 1) * nn]
    marker := e.marker }

/-- The side boundary edge emitted at node column `i` between levels `k`
and `k+1`.  Modelled from the spec: "a marked source node produces a side
edge of that marker running through all `y` levels"; the lateral ends of
the polyline take `leftMarker`/`rightMarker` if not already marked. -/
def sideEdgeAt (nn nNodes k : Nat) (leftMarker rightMarker : Int)
    (i : Nat) (m : Int) : Option BoundaryEdge :=
  let mk := if m ≠ 0 then m
            else if i = 0 then leftMarker
            else if i = nNodes - 1 then rightMarker
            else 0
  if mk ≠ 0 ∨ i = 0 ∨ i = nNodes - 1 then
    some ⟨i + k * nn, i + (k + 1) * nn, mk⟩
  else none

/-- `createMesh2D(mesh, y, frontMarker, backMarker, leftMarker,
rightMarker, adjustBack)` (`meshgenerators.h` lines 56-59).  Modelled
from the spec: the body lives in the missing `meshgenerators.cpp`.  The
1D polyline is replicated at every `y` level; for each consecutive pair
of `y` values and each source edge one quadrilateral cell is emitted with
the edge's marker; node markers follow `extrudedNodeMarker`; side
boundary edges follow `sideEdgeAt`.  Fewer than 2 levels, a non-monotonic
sequence, or a polyline without an edge is a usage error: no mesh is
returned.  `adjustBack` snaps the last-level node coordinates to the
front level's topology, an explicit post-processing step that leaves the
replicated coordinates of this embedding unchanged. -/
def createMesh2D (mesh : Mesh1) (y : List ℚ)
    (frontMarker backMarker leftMarker rightMarker : Int)
    (adjustBack : Bool) : Option Mesh2 :=
  if y.length < 2 ∨ strictlyIncreasing y = false ∨ mesh.edges.length < 1 then
    none
  else
    let nn := mesh.nodes.length
    let layers := y.length - 1
    let rawNodes := ((List.range y.length).zip y).map (fun kv =>
      mesh.nodes.map (fun n =>
        Node2.mk n.pos kv.2
          (extrudedNodeMarker y.length frontMarker backMarker kv.1 n.marker)))
    some
      { nodes := rawNodes.flatten
        bounds := ((List.range layers).map (fun k =>
          ((List.range nn).zip (mesh.nodes.map Node1.marker)).filterMap
            (fun im => sideEdgeAt nn nn k leftMarker rightMarker im.1 im.2))).flatten
        cells := ((List.range layers).map (fun k =>
          mesh.edges.map (quadAt nn k))).flatten }

/-- The 3D cell emitted for source 2D cell `c` between levels `k` and
`k+1`: the cell's nodes replicated at both levels (a triangle becomes a
6-node prism, a quad an 8-node hexahedron), marker taken from the source
cell.  Modelled from the spec: "3D cell marker are set from 2D cell
marker." -/
def liftedCellAt (nn k : Nat) (c : Cell) : Cell :=
  { nodes := c.nodes.map (· + k * nn) ++ c.nodes.map (· + (k + 1) * nn)
    marker := c.marker }

/-- The side wall face emitted for source boundary edge `e` between
levels `k` and `k+1`, marker taken from the source edge.  Modelled from
the spec: "The boundary marker for the side boundaries are set from edge
marker in mesh." -/
def sideFaceAt (nn k : Nat) (e : BoundaryEdge) : Face :=
  { nodes := [e.a + k * nn, e.b + k * nn, e.b + (k + 1) * nn, e.a + (k + 1) * nn]
    marker := e.marker }

/-- `createMesh3D(mesh, z, topMarker, bottomMarker)` (`meshgenerators.h`
line 71).  Modelled from the spec: the body lives in the missing
`meshgenerators.cpp`.  The 2D mesh is replicated at every `z` level; each
2D cell extruded between consecutive levels becomes a 3D cell keeping its
marker; source boundary edges become side wall faces keeping their
markers; the bottommost/topmost replica of every 2D cell becomes a
boundary face marked `bottomMarker`/`topMarker`.  Fewer than 2 levels or
a non-monotonic sequence is a usage error: no mesh is returned. -/
def createMesh3D (mesh : Mesh2) (z : List ℚ)
    (topMarker bottomMarker : Int) : Option Mesh3 :=
  if z.length < 2 ∨ strictlyIncreasing z = false then
    none
  else
    let nn := mesh.nodes.length
    let layers := z.length - 1
    some
      { nodes := (z.map (fun zv =>
          mesh.nodes.map (fun n => Node3.mk n.x n.y zv n.marker))).flatten
        bounds := mesh.cells.map (fun c => Face.mk c.nodes bottomMarker)
          ++ ((List.range layers).map (fun k =>
               mesh.bounds.map (sideFaceAt nn k))).flatten
          ++ mesh.cells.map (fun c =>
               Face.mk (c.nodes.map (· + layers * nn)) topMarker)
        cells := ((List.range layers).map (fun k =>
          mesh.cells.map (liftedCellAt nn k))).flatten }

/-- Minimum of two rationals, written out so the definition evaluates by
kernel reduction. -/
def qmin (a b : ℚ) : ℚ := if a ≤ b then a else b

/-- Maximum of two rationals, written out so the definition evaluates by
kernel reduction. -/
def qmax (a b : ℚ) : ℚ := if a ≤ b then b else a

/-- True when the existing mesh's bounding box has zero extent in some
direction (or the mesh has no node at all).  Modelled from the spec:
a "degenerate existing mesh with zero extent" is the construction-failure
case of `addTriangleBoundary`. -/
def degenerateExtent (mesh : Mesh2) : Bool :=
  match mesh.nodes with
  | [] => true
  | n :: ns =>
    let xmin := ns.foldl (fun acc m => qmin acc m.x) n.x
    let xmax := ns.foldl (fun acc m => qmax acc m.x) n.x
    let ymin := ns.foldl (fun acc m => qmin acc m.y) n.y
    let ymax := ns.foldl (fun acc m => qmax acc m.y) n.y
    decide (xmax - xmin ≤ 0) || decide (ymax - ymin ≤ 0)

/-- `addTriangleBoundary(mesh, xBoundary, yBoundary, cellMarker, save)`
(`meshgenerators.h` lines 78-80).  Modelled from the spec: the body lives
in the missing `meshgenerators.cpp`.  The mesh's bounding box is widened
by the half-extents `xBoundary`/`yBoundary` and an outer shell of coarse
triangular cells marked `cellMarker` is appended; on a degenerate source
mesh (zero extent) the call fails: it returns `false` and the mesh is
returned unchanged (atomic failure, spec §7 ConstructionFailure).  `save`
only controls diagnostic persistence, a non-functional side channel. -/
def addTriangleBoundary (mesh : Mesh2) (xBoundary yBoundary : ℚ)
    (cellMarker : Int) (save : Bool) : Bool × Mesh2 :=
  match mesh.nodes with
  | [] => (false, mesh)
  | n :: ns =>
    let xmin := ns.foldl (fun acc m => qmin acc m.x) n.x
    let xmax := ns.foldl (fun acc m => qmax acc m.x) n.x
    let ymin := ns.foldl (fun acc m => qmin acc m.y) n.y
    let ymax := ns.foldl (fun acc m => qmax acc m.y) n.y
    if xmax - xmin ≤ 0 ∨ ymax - ymin ≤ 0 then (false, mesh)
    else
      let base := mesh.nodes.length
      (true,
        { nodes := mesh.nodes ++
            [⟨xmin - xBoundary, ymin - yBoundary, 0⟩,
             ⟨xmax + xBoundary, ymin - yBoundary, 0⟩,
             ⟨xmax + xBoundary, ymax + yBoundary, 0⟩,
             ⟨xmin - xBoundary, ymax + yBoundary, 0⟩]
          bounds := mesh.bounds ++
            [⟨base, base + 1, 1⟩, ⟨base + 1, base + 2, 1⟩,
             ⟨base + 2, base + 3, 1⟩, ⟨base + 3, base, 1⟩]
          cells := mesh.cells ++
            [⟨[base, base + 1, base + 2], cellMarker⟩,
             ⟨[base, base + 2, base + 3], cellMarker⟩] })

/-! ## Helper lemmas on layered (flattened) lists -/

theorem length_flatten_const {α : Type} (L : List (List α)) (c : Nat)
    (h : ∀ l ∈ L, l.length = c) : L.flatten.length = L.length * c := by
  induction L with
  | nil => simp
  | cons hd tl ih =>
    rw [List.flatten_cons, List.length_append, List.length_cons,
      h hd (List.mem_cons_self hd tl),
      ih (fun l hl => h l (List.mem_cons_of_mem hd hl))]
    ring

theorem getElem?_flatten_const {α : Type} (L : List (List α)) (c : Nat)
    (h : ∀ l ∈ L, l.length = c) (k j : Nat) (hj : j < c) :
    L.flatten[k * c + j]? = L[k]?.bind (fun l => l[j]?) := by
  induction L generalizing k with
  | nil => simp
  | cons hd tl ih =>
    have hhd : hd.length = c := h hd (List.mem_cons_self hd tl)
    have htl : ∀ l ∈ tl, l.length = c := fun l hl => h l (List.mem_cons_of_mem hd hl)
    cases k with
    | zero =>
      rw [List.flatten_cons, List.getElem?_append]
      have hlt : 0 * c + j < hd.length := by omega
      rw [if_pos hlt]
      simp
    | succ k =>
      rw [List.flatten_cons, List.getElem?_append]
      have hmul : (k + 1) * c = k * c + c := Nat.succ_mul k c
      have hge : ¬ ((k + 1) * c + j < hd.length) := by omega
      rw [if_neg hge]
      have hidx : (k + 1) * c + j - hd.length = k * c + j := by omega
      rw [hidx, ih htl k]
      simp

/-! ## Claim theorems -/

/-- C1: for every 1D source mesh (a polyline with N ≥ 1 edges) and every
strictly increasing sequence `y` of M ≥ 2 levels, `createMesh2D` returns
a 2D mesh with exactly `N * (M-1)` quadrilateral cells; for each source
edge and each consecutive pair of `y` levels the emitted quad's marker
equals that source edge's marker, and the quads appear in the same
relative order as the source edges. -/
theorem createMesh2D_extrusion_correct (mesh : Mesh1) (y : List ℚ)
    (frontMarker backMarker leftMarker rightMarker : Int) (adjustBack : Bool)
    (hy : 2 ≤ y.length) (hmono : strictlyIncreasing y = true)
    (he : 1 ≤ mesh.edges.length) :
    ∃ m2, createMesh2D mesh y frontMarker backMarker leftMarker rightMarker
        adjustBack = some m2 ∧
      m2.cells.length = mesh.edges.length * (y.length - 1) ∧
      (∀ c ∈ m2.cells, c.nodes.length = 4) ∧
      (∀ k j, k < y.length - 1 → j < mesh.edges.length →
        m2.cells[k * mesh.edges.length + j]?.map Cell.marker
          = mesh.edges[j]?.map Edge1.marker) := by
  have hcond : ¬ (y.length < 2 ∨ strictlyIncreasing y = false ∨
      mesh.edges.length < 1) := by
    push_neg
    exact ⟨by omega, by simp [hmono], by omega⟩
  rw [createMesh2D, if_neg hcond]
  refine ⟨_, rfl, ?_, ?_, ?_⟩
  · rw [length_flatten_const _ mesh.edges.length]
    · simp [Nat.mul_comm]
    · intro l hl
      simp only [List.mem_map] at hl
      obtain ⟨k, _, rfl⟩ := hl
      simp
  · intro c hc
    simp only [List.mem_flatten, List.mem_map] at hc
    obtain ⟨l, ⟨k, _, rfl⟩, hcl⟩ := hc
    simp only [List.mem_map] at hcl
    obtain ⟨e, _, rfl⟩ := hcl
    simp [quadAt]
  · intro k j hk hj
    rw [getElem?_flatten_const _ mesh.edges.length _ k j hj]
    · have hkr : k < (List.range (y.length - 1)).length := by simpa using hk
      rw [List.getElem?_map, List.getElem?_range (by simpa using hk)]
      cases hje : mesh.edges[j]? with
      | none => simp [hje]
      | some e => simp [hje, quadAt]
    · intro l hl
      simp only [List.mem_map] at hl
      obtain ⟨kk, _, rfl⟩ := hl
      simp

/-- C1 witness: the spec's own example, a polyline with edges of markers
5 and 7 extruded along `[0, 1]`, satisfies the extrusion theorem's
hypotheses and yields a mesh of two quads. -/
theorem createMesh2D_extrusion_correct_witness :
    ∃ m2, createMesh2D ⟨[⟨0, 0⟩, ⟨1, 0⟩, ⟨2, 0⟩], [⟨0, 1, 5⟩, ⟨1, 2, 7⟩]⟩
        [0, 1] 0 0 0 0 false = some m2 ∧
      m2.cells.length = 2 ∧
      m2.cells.map Cell.marker = [5, 7] := by
  obtain ⟨m2, hm2, hlen, _, hmarks⟩ :=
    createMesh2D_extrusion_correct ⟨[⟨0, 0⟩, ⟨1, 0⟩, ⟨2, 0⟩], [⟨0, 1, 5⟩, ⟨1, 2, 7⟩]⟩
      [0, 1] 0 0 0 0 false (by decide) (by decide) (by decide)
  rw [hm2] at *
  exact ⟨m2, rfl, by simpa using hlen, by
    have h0 := hmarks 0 0 (by decide) (by decide)
    have h1 := hmarks 0 1 (by decide) (by decide)
    simp only [Nat.zero_mul, Nat.zero_add] at h0 h1
    have hl : m2.cells.length = 2 := by simpa using hlen
    rcases m2 with ⟨ns, bs, cs⟩
    rcases cs with _ | ⟨c0, _ | ⟨c1, _ | _⟩⟩ <;> simp_all⟩

/-- C3: for both `createMesh2D` and `createMesh3D`, an extrusion axis
sequence with fewer than 2 levels or non-monotonic values, and (for
`createMesh2D`) a source polyline with fewer than 1 edge, is rejected:
the call returns no mesh at all. -/
theorem extrusion_rejects_malformed_input :
    (∀ (mesh : Mesh1) (y : List ℚ) (f b l r : Int) (adj : Bool),
      y.length < 2 ∨ strictlyIncreasing y = false →
      createMesh2D mesh y f b l r adj = none) ∧
    (∀ (mesh : Mesh1) (y : List ℚ) (f b l r : Int) (adj : Bool),
      mesh.edges.length < 1 →
      createMesh2D mesh y f b l r adj = none) ∧
    (∀ (mesh : Mesh2) (z : List ℚ) (t bo : Int),
      z.length < 2 ∨ strictlyIncreasing z = false →
      createMesh3D mesh z t bo = none) := by
  refine ⟨?_, ?_, ?_⟩
  · intro mesh y f b l r adj h
    rw [createMesh2D, if_pos (by tauto)]
  · intro mesh y f b l r adj h
    rw [createMesh2D, if_pos (by tauto)]
  · intro mesh z t bo h
    rw [createMesh3D, if_pos (by tauto)]

/-- C3 witness: the non-monotonic axis sequence `[0, 2, 1]` is rejected
by both generators, and a polyline without an edge is rejected. -/
theorem extrusion_rejects_malformed_input_witness :
    createMesh2D ⟨[⟨0, 0⟩, ⟨1, 0⟩], [⟨0, 1, 1⟩]⟩ [0, 2, 1] 0 0 0 0 false = none ∧
    createMesh3D ⟨[⟨0, 0, 0⟩], [], []⟩ [0, 2, 1] 0 0 = none ∧
    createMesh2D ⟨[⟨0, 0⟩], []⟩ [0, 1] 0 0 0 0 false = none := by
  refine ⟨?_, ?_, ?_⟩
  · exact extrusion_rejects_malformed_input.1 _ _ _ _ _ _ _ (Or.inr (by decide))
  · exact extrusion_rejects_malformed_input.2.2 _ _ _ _ (Or.inr (by decide))
  · exact extrusion_rejects_malformed_input.2.1 _ _ _ _ _ _ _ (by decide)

/-- C2: for every 2D source mesh with C cells and every strictly
increasing sequence `z` of M ≥ 2 levels, `createMesh3D` returns a 3D mesh
with exactly `C * (M-1)` cells; each source cell lifts to a cell with
twice its node count (quad → hexahedron, triangle → prism) keeping the
source cell's marker, and every boundary face lying entirely in the first
`z` level carries `bottomMarker` while every one lying entirely in the
last `z` level carries `topMarker`. -/
theorem createMesh3D_extrusion_correct (mesh : Mesh2) (z : List ℚ)
    (topMarker bottomMarker : Int)
    (hz : 2 ≤ z.length) (hmono : strictlyIncreasing z = true)
    (hcells : ∀ c ∈ mesh.cells, c.nodes ≠ [] ∧
      ∀ i ∈ c.nodes, i < mesh.nodes.length)
    (hbounds : ∀ e ∈ mesh.bounds, e.a < mesh.nodes.length ∧
      e.b < mesh.nodes.length) :
    ∃ m3, createMesh3D mesh z topMarker bottomMarker = some m3 ∧
      m3.cells.length = mesh.cells.length * (z.length - 1) ∧
      (∀ k j, k < z.length - 1 → j < mesh.cells.length →
        m3.cells[k * mesh.cells.length + j]?.map Cell.marker
          = mesh.cells[j]?.map Cell.marker ∧
        m3.cells[k * mesh.cells.length + j]?.map (fun c => c.nodes.length)
          = mesh.cells[j]?.map (fun c => 2 * c.nodes.length)) ∧
      (∀ f ∈ m3.bounds,
        ((∀ i ∈ f.nodes, i < mesh.nodes.length) → f.marker = bottomMarker) ∧
        ((∀ i ∈ f.nodes, (z.length - 1) * mesh.nodes.length ≤ i) →
          f.marker = topMarker)) := by
  have hcond : ¬ (z.length < 2 ∨ strictlyIncreasing z = false) := by
    push_neg
    exact ⟨by omega, by simp [hmono]⟩
  rw [createMesh3D, if_neg hcond]
  have hconst : ∀ l ∈ (List.range (z.length - 1)).map
      (fun k => mesh.cells.map (liftedCellAt mesh.nodes.length k)),
      l.length = mesh.cells.length := by
    intro l hl
    simp only [List.mem_map] at hl
    obtain ⟨k, _, rfl⟩ := hl
    simp
  refine ⟨_, rfl, ?_, ?_, ?_⟩
  · rw [length_flatten_const _ mesh.cells.length hconst]
    simp [Nat.mul_comm]
  · intro k j hk hj
    rw [getElem?_flatten_const _ mesh.cells.length hconst k j hj,
      List.getElem?_map, List.getElem?_range (by simpa using hk)]
    cases hje : mesh.cells[j]? with
    | none => simp [hje]
    | some c => simp [hje, liftedCellAt, Nat.two_mul]
  · intro f hf
    simp only [List.mem_append] at hf
    have hnn : ∀ i < mesh.nodes.length, 1 ≤ mesh.nodes.length := by omega
    rcases hf with (hf | hf) | hf
    · -- bottom face: marker is bottomMarker, cannot lie in the last level
      simp only [List.mem_map] at hf
      obtain ⟨c, hc, rfl⟩ := hf
      obtain ⟨hne, hidx⟩ := hcells c hc
      refine ⟨fun _ => rfl, fun htop => ?_⟩
      obtain ⟨i0, hi0⟩ := List.exists_mem_of_ne_nil c.nodes hne
      have h1 := hidx i0 hi0
      have h2 := htop i0 hi0
      have h3 : mesh.nodes.length ≤ (z.length - 1) * mesh.nodes.length :=
        Nat.le_mul_of_pos_left mesh.nodes.length (by omega)
      omega
    · -- side wall face: lies in no single level
      simp only [List.mem_flatten, List.mem_map] at hf
      obtain ⟨l, ⟨k, hk, rfl⟩, hfl⟩ := hf
      simp only [List.mem_range] at hk
      simp only [List.mem_map] at hfl
      obtain ⟨e, he, rfl⟩ := hfl
      obtain ⟨ha, hb⟩ := hbounds e he
      constructor
      · intro hbot
        have h1 := hbot (e.b + (k + 1) * mesh.nodes.length) (by simp [sideFaceAt])
        have h2 : mesh.nodes.length ≤ (k + 1) * mesh.nodes.length :=
          Nat.le_mul_of_pos_left mesh.nodes.length (by omega)
        omega
      · intro htop
        have h1 := htop (e.a + k * mesh.nodes.length) (by simp [sideFaceAt])
        have h2 : (k + 1) * mesh.nodes.length ≤
            (z.length - 1) * mesh.nodes.length :=
          Nat.mul_le_mul_right mesh.nodes.length (by omega)
        have h3 : (k + 1) * mesh.nodes.length = k * mesh.nodes.length +
            mesh.nodes.length := Nat.succ_mul k mesh.nodes.length
        omega
    · -- top face: marker is topMarker, cannot lie in the first level
      simp only [List.mem_map] at hf
      obtain ⟨c, hc, rfl⟩ := hf
      obtain ⟨hne, hidx⟩ := hcells c hc
      refine ⟨fun hbot => ?_, fun _ => rfl⟩
      obtain ⟨i0, hi0⟩ := List.exists_mem_of_ne_nil c.nodes hne
      have h1 := hidx i0 hi0
      have h2 := hbot (i0 + (z.length - 1) * mesh.nodes.length)
        (List.mem_map_of_mem _ hi0)
      have h3 : mesh.nodes.length ≤ (z.length - 1) * mesh.nodes.length :=
        Nat.le_mul_of_pos_left mesh.nodes.length (by omega)
      omega

/-- C2 witness: a one-triangle, one-boundary-edge 2D mesh extruded along
`[0, 1]` satisfies the extrusion theorem's hypotheses and yields one
prism cell of the source marker, with bottom and top faces marked. -/
theorem createMesh3D_extrusion_correct_witness :
    ∃ m3, createMesh3D ⟨[⟨0, 0, 0⟩, ⟨1, 0, 0⟩, ⟨0, 1, 0⟩], [⟨0, 1, 9⟩],
        [⟨[0, 1, 2], 3⟩]⟩ [0, 1] 11 12 = some m3 ∧
      m3.cells.length = 1 ∧
      m3.cells.map Cell.marker = [3] ∧
      m3.cells.map (fun c => c.nodes.length) = [6] := by
  obtain ⟨m3, hm3, hlen, hcell, _⟩ :=
    createMesh3D_extrusion_correct
      ⟨[⟨0, 0, 0⟩, ⟨1, 0, 0⟩, ⟨0, 1, 0⟩], [⟨0, 1, 9⟩], [⟨[0, 1, 2], 3⟩]⟩
      [0, 1] 11 12 (by decide) (by decide) (by decide) (by decide)
  obtain ⟨hmark, hsize⟩ := hcell 0 0 (by decide) (by decide)
  simp only [Nat.zero_mul, Nat.zero_add] at hmark hsize
  refine ⟨m3, hm3, by simpa using hlen, ?_, ?_⟩
  · have hl : m3.cells.length = 1 := by simpa using hlen
    rcases m3 with ⟨ns, bs, cs⟩
    rcases cs with _ | ⟨c0, _ | _⟩ <;> simp_all
  · have hl : m3.cells.length = 1 := by simpa using hlen
    rcases m3 with ⟨ns, bs, cs⟩
    rcases cs with _ | ⟨c0, _ | _⟩ <;> simp_all

/-- C4: whenever `addTriangleBoundary` cannot construct the augmentation
(a degenerate existing mesh with zero extent), it returns `false` and the
call is atomic: the target mesh is returned unchanged, with no boundary
added on failure. -/
theorem addTriangleBoundary_atomic_on_failure (mesh : Mesh2)
    (xBoundary yBoundary : ℚ) (cellMarker : Int) (save : Bool) :
    (degenerateExtent mesh = true →
      addTriangleBoundary mesh xBoundary yBoundary cellMarker save =
        (false, mesh)) ∧
    ((addTriangleBoundary mesh xBoundary yBoundary cellMarker save).1 = false →
      (addTriangleBoundary mesh xBoundary yBoundary cellMarker save).2 =
        mesh) := by
  rcases mesh with ⟨nodes, bounds, cells⟩
  cases nodes with
  | nil => exact ⟨fun _ => rfl, fun _ => rfl⟩
  | cons n ns =>
    simp only [addTriangleBoundary, degenerateExtent]
    by_cases hdeg :
        ns.foldl (fun acc m => qmax acc m.x) n.x -
          ns.foldl (fun acc m => qmin acc m.x) n.x ≤ 0 ∨
        ns.foldl (fun acc m => qmax acc m.y) n.y -
          ns.foldl (fun acc m => qmin acc m.y) n.y ≤ 0
    · rw [if_pos hdeg]
      exact ⟨fun _ => rfl, fun _ => rfl⟩
    · rw [if_neg hdeg]
      push_neg at hdeg
      constructor
      · intro hfalse
        simp only [Bool.or_eq_true, decide_eq_true_eq] at hfalse
        rcases hfalse with h | h
        · exact absurd h (by linarith [hdeg.1])
        · exact absurd h (by linarith [hdeg.2])
      · intro hfst
        simp at hfst

/-- C4 witness: a mesh whose single node gives a zero-extent bounding box
is rejected with `false` and returned unchanged. -/
theorem addTriangleBoundary_atomic_on_failure_witness :
    addTriangleBoundary ⟨[⟨0, 0, 0⟩], [], []⟩ 1 1 7 false =
      (false, ⟨[⟨0, 0, 0⟩], [], []⟩) :=
  (addTriangleBoundary_atomic_on_failure ⟨[⟨0, 0, 0⟩], [], []⟩ 1 1 7
    false).1 (by norm_num [degenerateExtent])

/-! ## Dot-product helper lemmas -/

theorem RVector3.dot_comm (a b : RVector3) : a.dot b = b.dot a := by
  simp only [RVector3.dot]; ring

theorem RVector3.dot_add_right (a b c : RVector3) :
    a.dot (b.add c) = a.dot b + a.dot c := by
  simp only [RVector3.dot, RVector3.add]; ring

theorem RVector3.dot_smul_right (s : ℝ) (a b : RVector3) :
    a.dot (RVector3.smul s b) = s * a.dot b := by
  simp only [RVector3.dot, RVector3.smul]; ring

theorem RVector3.dot_sub_right (a b c : RVector3) :
    a.dot (b.sub c) = a.dot b - a.dot c := by
  simp only [RVector3.dot, RVector3.sub]; ring

theorem RVector3.sub_neg_eq_two_smul (n : RVector3) :
    n.sub n.neg = RVector3.smul 2 n := by
  simp only [RVector3.sub, RVector3.neg, RVector3.smul, RVector3.mk.injEq]
  refine ⟨by ring, by ring, by ring⟩

/-- C5: `compare(other, tol)` is true iff both planes are valid and
`|norm - other.norm| < tol` and `|d - other.d| < tol`; in particular a
valid plane with nonzero `d` compares unequal (at the default tolerance)
to the plane with negated normal and negated distance, the same geometric
plane with opposite orientation. -/
theorem plane_compare_spec :
    (∀ (p q : Plane) (tol : ℝ), p.compare q tol ↔
      (p.valid ∧ q.valid ∧ (p.norm_.sub q.norm_).length < tol ∧
        |p.d - q.d| < tol)) ∧
    (∀ (n : RVector3) (dd : ℝ), (Plane.fromNormD n dd).valid → dd ≠ 0 →
      ¬ (Plane.fromNormD n dd).compare
          (Plane.fromNormD n.neg (-dd)) TOLERANCE) := by
  constructor
  · intro p q tol
    exact Iff.rfl
  · intro n dd hvalid _ hcmp
    obtain ⟨-, -, hnorm, -⟩ := hcmp
    have hv : |n.length - 1| < TOLERANCE := hvalid
    simp only [Plane.fromNormD] at hnorm
    rw [RVector3.sub_neg_eq_two_smul, RVector3.length_smul] at hnorm
    have htol : TOLERANCE = 1e-12 := rfl
    rw [htol] at hv hnorm
    rw [abs_lt] at hv
    have h2 : |(2 : ℝ)| = 2 := by norm_num
    rw [h2] at hnorm
    linarith [hv.1, hnorm]

/-- C5 witness: the unit-x plane at distance 2 is valid, has nonzero
distance, and compares unequal to its orientation-flipped twin. -/
theorem plane_compare_spec_witness :
    ¬ (Plane.fromNormD ⟨1, 0, 0⟩ 2).compare
        (Plane.fromNormD (RVector3.neg ⟨1, 0, 0⟩) (-2)) TOLERANCE := by
  refine plane_compare_spec.2 ⟨1, 0, 0⟩ 2 ?_ (by norm_num)
  show |RVector3.length ⟨1, 0, 0⟩ - 1| < TOLERANCE
  have h1 : RVector3.length ⟨1, 0, 0⟩ = 1 := by
    simp only [RVector3.length, RVector3.dot]
    rw [show (1 : ℝ) * 1 + 0 * 0 + 0 * 0 = 1 by ring, Real.sqrt_one]
  rw [h1]
  norm_num [TOLERANCE]

/-- The normal of a plane built from three points with nonzero spanning
cross product has unit length. -/
theorem fromPoints_norm_length (p0 p1 p2 : RVector3)
    (h : (RVector3.cross (p1.sub p0) (p2.sub p0)).length ≠ 0) :
    (Plane.fromPoints p0 p1 p2).norm_.length = 1 := by
  have hpos : 0 < (RVector3.cross (p1.sub p0) (p2.sub p0)).length :=
    lt_of_le_of_ne (RVector3.length_nonneg _) (Ne.symm h)
  show (RVector3.smul (1 / (RVector3.cross (p1.sub p0) (p2.sub p0)).length)
      (RVector3.cross (p1.sub p0) (p2.sub p0))).length = 1
  rw [RVector3.length_smul, abs_of_pos (by positivity)]
  field_simp

/-- C6: `touch(pos, tol)` is true iff the plane is valid and
`|distance(pos)| < tol`; consequently the plane built from three
non-collinear points (nonzero spanning cross product) touches each of
them at the default tolerance. -/
theorem plane_touch_spec :
    (∀ (p : Plane) (pos : RVector3) (tol : ℝ),
      p.touch pos tol ↔ (p.valid ∧ |p.distance pos| < tol)) ∧
    (∀ p0 p1 p2 : RVector3,
      (RVector3.cross (p1.sub p0) (p2.sub p0)).length ≠ 0 →
      ((Plane.fromPoints p0 p1 p2).touch p0 TOLERANCE ∧
       (Plane.fromPoints p0 p1 p2).touch p1 TOLERANCE ∧
       (Plane.fromPoints p0 p1 p2).touch p2 TOLERANCE)) := by
  constructor
  · intro p pos tol
    exact Iff.rfl
  · intro p0 p1 p2 h
    have hunit := fromPoints_norm_length p0 p1 p2 h
    have hvalid : (Plane.fromPoints p0 p1 p2).valid_ := by
      show |(Plane.fromPoints p0 p1 p2).norm_.length - 1| < TOLERANCE
      rw [hunit]
      norm_num [TOLERANCE]
    set c := RVector3.cross (p1.sub p0) (p2.sub p0) with hc
    set n := (Plane.fromPoints p0 p1 p2).norm_ with hn
    have hnval : n = RVector3.smul (1 / c.length) c := rfl
    have hd : (Plane.fromPoints p0 p1 p2).d_ = n.dot p0 := rfl
    have hdist : ∀ q : RVector3, (Plane.fromPoints p0 p1 p2).distance q
        = n.dot q - n.dot p0 := fun q => rfl
    have hc1 : n.dot p1 - n.dot p0 = 0 := by
      have : n.dot (p1.sub p0) = 0 := by
        rw [hnval, RVector3.dot_comm, RVector3.dot_smul_right, hc,
          RVector3.dot_cross_left]
        ring
      rw [RVector3.dot_sub_right] at this
      linarith
    have hc2 : n.dot p2 - n.dot p0 = 0 := by
      have : n.dot (p2.sub p0) = 0 := by
        rw [hnval, RVector3.dot_comm, RVector3.dot_smul_right, hc,
          RVector3.dot_cross_right]
        ring
      rw [RVector3.dot_sub_right] at this
      linarith
    have htolpos : (0 : ℝ) < TOLERANCE := by norm_num [TOLERANCE]
    refine ⟨⟨hvalid, ?_⟩, ⟨hvalid, ?_⟩, ⟨hvalid, ?_⟩⟩
    · rw [hdist p0]
      simp [htolpos]
    · rw [hdist p1, hc1]
      simpa using htolpos
    · rw [hdist p2, hc2]
      simpa using htolpos

/-- C6 witness: the plane through the three non-collinear points
`(0,0,0)`, `(1,0,0)`, `(0,1,0)` touches all three of them. -/
theorem plane_touch_spec_witness :
    (Plane.fromPoints ⟨0, 0, 0⟩ ⟨1, 0, 0⟩ ⟨0, 1, 0⟩).touch ⟨0, 0, 0⟩ TOLERANCE ∧
    (Plane.fromPoints ⟨0, 0, 0⟩ ⟨1, 0, 0⟩ ⟨0, 1, 0⟩).touch ⟨1, 0, 0⟩ TOLERANCE ∧
    (Plane.fromPoints ⟨0, 0, 0⟩ ⟨1, 0, 0⟩ ⟨0, 1, 0⟩).touch ⟨0, 1, 0⟩
      TOLERANCE := by
  refine plane_touch_spec.2 ⟨0, 0, 0⟩ ⟨1, 0, 0⟩ ⟨0, 1, 0⟩ ?_
  have h : RVector3.cross (RVector3.sub ⟨1, 0, 0⟩ ⟨0, 0, 0⟩)
      (RVector3.sub ⟨0, 1, 0⟩ ⟨0, 0, 0⟩) = ⟨0, 0, 1⟩ := by
    simp only [RVector3.cross, RVector3.sub, RVector3.mk.injEq]
    norm_num
  rw [h]
  simp only [RVector3.length, RVector3.dot]
  rw [show (0 : ℝ) * 0 + 0 * 0 + 1 * 1 = 1 by ring, Real.sqrt_one]
  norm_num

/-- C7: `distance(pos)` is the signed scalar `norm·pos − d`; in
particular, for every unit vector `n` and scalar `d`, the plane
`Plane(n, d)` has distance exactly zero (hence zero within any
tolerance) at the point `n * d`. -/
theorem plane_distance_spec :
    (∀ (p : Plane) (pos : RVector3),
      p.distance pos = p.norm_.dot pos - p.d) ∧
    (∀ (n : RVector3) (dd : ℝ), n.length = 1 →
      (Plane.fromNormD n dd).distance (RVector3.smul dd n) = 0) := by
  constructor
  · intro p pos
    rfl
  · intro n dd hunit
    show n.dot (RVector3.smul dd n) - dd = 0
    rw [RVector3.dot_smul_right]
    have hnn : n.dot n = 1 := by
      have := RVector3.length_sq n
      rw [hunit] at this
      simpa using this.symm
    rw [hnn]
    ring

/-- C7 witness: the plane with unit normal `(0,0,1)` at distance 5 has
distance zero at the point `(0,0,5)`. -/
theorem plane_distance_spec_witness :
    (Plane.fromNormD ⟨0, 0, 1⟩ 5).distance
      (RVector3.smul 5 ⟨0, 0, 1⟩) = 0 := by
  refine plane_distance_spec.2 ⟨0, 0, 1⟩ 5 ?_
  simp only [RVector3.length, RVector3.dot]
  rw [show (0 : ℝ) * 0 + 0 * 0 + 1 * 1 = 1 by ring, Real.sqrt_one]

/-- C9: `checkValidity(tol)` returns true iff `||norm| − 1.0| < tol`,
and leaves the plane (its `valid` flag included) unchanged. -/
theorem plane_checkValidity_spec (p : Plane) (tol : ℝ) :
    ((p.checkValidity tol).1 ↔ |p.norm_.length - 1| < tol) ∧
    (p.checkValidity tol).2 = p :=
  ⟨Iff.rfl, rfl⟩

/-- C10: a default-constructed plane is invalid: `valid()` is false, and
therefore `touch` is false for every position and `compare` is false
against every plane. -/
theorem plane_default_invalid :
    ¬ Plane.defaultPlane.valid ∧
    (∀ (pos : RVector3) (tol : ℝ), ¬ Plane.defaultPlane.touch pos tol) ∧
    (∀ (q : Plane) (tol : ℝ), ¬ Plane.defaultPlane.compare q tol) :=
  ⟨fun h => h, fun _ _ h => h.1, fun _ _ h => h.1⟩

/-- C8: intersecting planes whose normals are parallel within tolerance
(cross product magnitude below `tol`) — coincident planes and
self-intersection included — yields an invalid line; intersecting valid
non-parallel planes yields a valid line each of whose points satisfies
both plane equations (distance zero, hence within any positive
tolerance). -/
theorem plane_intersect_spec :
    (∀ (p q : Plane) (tol : ℝ),
      (RVector3.cross p.norm_ q.norm_).length < tol →
      ¬ (p.intersect q tol).valid_) ∧
    (∀ (p q : Plane) (tol : ℝ), 0 < tol → p.valid → q.valid →
      tol ≤ (RVector3.cross p.norm_ q.norm_).length →
      ((p.intersect q tol).valid_ ∧
       ∀ t : ℝ, |p.distance ((p.intersect q tol).at t)| < tol ∧
                |q.distance ((p.intersect q tol).at t)| < tol)) := by
  constructor
  · intro p q tol hpar hval
    exact absurd hval.2.2 (not_le.mpr hpar)
  · intro p q tol htol hp hq hle
    set c := RVector3.cross p.norm_ q.norm_ with hc
    have hlenpos : 0 < c.length := lt_of_lt_of_le htol hle
    have hdpos : 0 < c.dot c := RVector3.dot_pos_of_length_pos hlenpos
    have hlag : c.dot c = p.norm_.dot p.norm_ * (q.norm_.dot q.norm_)
        - p.norm_.dot q.norm_ * (p.norm_.dot q.norm_) :=
      RVector3.cross_dot_self _ _
    have hdenom : p.norm_.dot p.norm_ * (q.norm_.dot q.norm_)
        - p.norm_.dot q.norm_ * (p.norm_.dot q.norm_) ≠ 0 := by
      rw [← hlag]
      exact ne_of_gt hdpos
    have hpc : p.norm_.dot c = 0 := by
      rw [hc]
      exact RVector3.dot_cross_left _ _
    have hqc : q.norm_.dot c = 0 := by
      rw [hc]
      exact RVector3.dot_cross_right _ _
    refine ⟨⟨hp, hq, hle⟩, fun t => ?_⟩
    have hpd : p.distance ((p.intersect q tol).at t) = 0 := by
      show p.norm_.dot
        (((RVector3.smul ((p.d_ * q.norm_.dot q.norm_
              - q.d_ * p.norm_.dot q.norm_) / c.dot c) p.norm_).add
          (RVector3.smul ((q.d_ * p.norm_.dot p.norm_
              - p.d_ * p.norm_.dot q.norm_) / c.dot c) q.norm_)).add
          (RVector3.smul t (RVector3.smul (1 / c.length) c))) - p.d_ = 0
      simp only [RVector3.dot_add_right, RVector3.dot_smul_right]
      rw [hpc, hlag]
      field_simp
      ring
    have hqd : q.distance ((p.intersect q tol).at t) = 0 := by
      show q.norm_.dot
        (((RVector3.smul ((p.d_ * q.norm_.dot q.norm_
              - q.d_ * p.norm_.dot q.norm_) / c.dot c) p.norm_).add
          (RVector3.smul ((q.d_ * p.norm_.dot p.norm_
              - p.d_ * p.norm_.dot q.norm_) / c.dot c) q.norm_)).add
          (RVector3.smul t (RVector3.smul (1 / c.length) c))) - q.d_ = 0
      simp only [RVector3.dot_add_right, RVector3.dot_smul_right]
      rw [hqc, RVector3.dot_comm q.norm_ p.norm_, hlag]
      field_simp
      ring
    rw [hpd, hqd]
    simpa using htol

/-- C8 witness: intersecting the plane `z = 0` with itself is invalid,
while intersecting it with the valid non-parallel plane `y = 0` gives a
valid line. -/
theorem plane_intersect_spec_witness :
    ¬ ((Plane.fromNormD ⟨0, 0, 1⟩ 0).intersect
        (Plane.fromNormD ⟨0, 0, 1⟩ 0) TOLERANCE).valid_ ∧
    ((Plane.fromNormD ⟨0, 0, 1⟩ 0).intersect
        (Plane.fromNormD ⟨0, 1, 0⟩ 0) TOLERANCE).valid_ := by
  have hlen1 : RVector3.length ⟨0, 0, 1⟩ = 1 := by
    simp only [RVector3.length, RVector3.dot]
    rw [show (0 : ℝ) * 0 + 0 * 0 + 1 * 1 = 1 by ring, Real.sqrt_one]
  have hlen2 : RVector3.length ⟨0, 1, 0⟩ = 1 := by
    simp only [RVector3.length, RVector3.dot]
    rw [show (0 : ℝ) * 0 + 1 * 1 + 0 * 0 = 1 by ring, Real.sqrt_one]
  constructor
  · refine plane_intersect_spec.1 _ _ TOLERANCE ?_
    have hself : RVector3.cross (⟨0, 0, 1⟩ : RVector3) ⟨0, 0, 1⟩
        = ⟨0, 0, 0⟩ := by
      simp only [RVector3.cross, RVector3.mk.injEq]
      norm_num
    show (RVector3.cross (⟨0, 0, 1⟩ : RVector3) ⟨0, 0, 1⟩).length < TOLERANCE
    rw [hself]
    simp only [RVector3.length, RVector3.dot]
    rw [show (0 : ℝ) * 0 + 0 * 0 + 0 * 0 = 0 by ring, Real.sqrt_zero]
    norm_num [TOLERANCE]
  · refine (plane_intersect_spec.2 _ _ TOLERANCE (by norm_num [TOLERANCE])
      ?_ ?_ ?_).1
    · show |RVector3.length ⟨0, 0, 1⟩ - 1| < TOLERANCE
      rw [hlen1]
      norm_num [TOLERANCE]
    · show |RVector3.length ⟨0, 1, 0⟩ - 1| < TOLERANCE
      rw [hlen2]
      norm_num [TOLERANCE]
    · show TOLERANCE ≤ (RVector3.cross (⟨0, 0, 1⟩ : RVector3) ⟨0, 1, 0⟩).length
      have hcr : RVector3.cross (⟨0, 0, 1⟩ : RVector3) ⟨0, 1, 0⟩
          = ⟨-1, 0, 0⟩ := by
        simp only [RVector3.cross, RVector3.mk.injEq]
        norm_num
      rw [hcr]
      simp only [RVector3.length, RVector3.dot]
      rw [show (-1 : ℝ) * -1 + 0 * 0 + 0 * 0 = 1 by ring, Real.sqrt_one]
      norm_num [TOLERANCE]

end GIMLI
